import Mathlib

/- Verification of the dispatch planning and dynamic re-optimization engine
   of the Dispatch-Planning-Space-Optimization-System repository.

   The embedded code lives in
     dispatch_optimizer/agents/dispatch_planner.py  (DispatchPlanner) and
     dispatch_optimizer/agents/dynamic_optimizer.py (DynamicOptimizer).

   Modelling conventions:
   - Python float values (weights, volumes, capacities, scores, timestamps)
     are modelled as exact rationals; Euclidean distances, which the source
     computes with np.sqrt, are modelled as exact real numbers.
   - Timestamps count days, so the calendar date of a datetime value is the
     floor of the corresponding rational.
   - Python dicts keyed by vehicle id are modelled as functions from String,
     updated pointwise; dicts with remembered insertion order are modelled
     as association lists.
   - The per-item record dicts of DynamicOptimizer.current_state are mutated
     in place by the source, so they are modelled through an explicit store
     of records indexed by natural numbers: a state maps each product id to
     an index, and in-place mutation is a write to the store. -/

/-- A delivery item as handed to DispatchPlanner.optimize_routes: the product
columns used by the planner plus the delivery fields that
assign_delivery_locations adds (delivery_location, delivery_window_start,
priority_score). -/
structure Item where
  name : String
  weight : ℚ
  length : ℚ
  width : ℚ
  height : ℚ
  fragile : Bool
  priority : Option String
  delivery_location : ℚ × ℚ
  delivery_window_start : ℚ
  priority_score : ℚ
deriving DecidableEq

/-- Volume of an item, computed in the source as Length * Width * Height. -/
def Item.volume (p : Item) : ℚ := p.length * p.width * p.height

/-- A fleet vehicle as registered by DispatchPlanner.add_vehicle. -/
structure Vehicle where
  id : String
  capacity_weight : ℚ
  capacity_volume : ℚ
  fuel_efficiency : ℚ
  operating_cost_per_km : ℚ
  available : Bool
deriving DecidableEq

/-- A driver as registered by DispatchPlanner.add_driver. -/
structure Driver where
  id : String
  name : String
  max_hours : ℚ
  hourly_rate : ℚ
  available : Bool
deriving DecidableEq

/-- Sum of the Weight column over a list of items. -/
def sumWeights (l : List Item) : ℚ := (l.map Item.weight).sum

/-- Sum of Length * Width * Height over a list of items. -/
def sumVolumes (l : List Item) : ℚ := (l.map Item.volume).sum

/-- DispatchPlanner._calculate_priority_score: a base score looked up in
priority_map = (High 3, Medium 2, Low 1) with default 2 for a missing or
unknown tier, plus 1 when the item is fragile, plus 1/2 when its weight
exceeds 200. -/
def calculate_priority_score (p : Item) : ℚ :=
  (match p.priority with
   | some s => if s = "High" then 3 else if s = "Medium" then 2 else if s = "Low" then 1 else 2
   | none => 2)
  + (if p.fragile then 1 else 0)
  + (if p.weight > 200 then 1/2 else 0)

/-- C8: the priority score is the tier base (3 for High, 1 for Low, and 2 for
Medium as well as for a missing or unknown tier) plus a fragility bonus of 1
plus a heavy-weight bonus of 1/2 exactly when the weight exceeds 200; in
particular a fragile High-priority item of weight 250 scores 4.5. The scorer
is a pure function of the item, so it is deterministic and side-effect free. -/
theorem claim_C8 (p : Item) :
    calculate_priority_score p =
      (if p.priority = some "High" then 3
       else if p.priority = some "Low" then 1 else 2)
      + (if p.fragile then 1 else 0)
      + (if 200 < p.weight then 1/2 else 0)
    ∧ (p.priority = some "High" → p.fragile = true → p.weight = 250 →
        calculate_priority_score p = 4.5) := by
  constructor
  · cases hpr : p.priority with
    | none => simp [calculate_priority_score, hpr]
    | some s =>
      by_cases hH : s = "High"
      · simp [calculate_priority_score, hpr, hH]
      · by_cases hM : s = "Medium"
        · simp [calculate_priority_score, hpr, hH, hM]
        · by_cases hL : s = "Low"
          · simp [calculate_priority_score, hpr, hH, hM, hL]
          · simp [calculate_priority_score, hpr, hH, hM, hL]
  · intro hH hf hw
    simp only [calculate_priority_score, hH, hf, hw]
    norm_num

/-- Witness for C8 at the concrete item of the spec: High tier, fragile,
weight 250 scores 4.5. -/
theorem claim_C8_witness :
    calculate_priority_score
      { name := "P1", weight := 250, length := 1, width := 1, height := 1,
        fragile := true, priority := some "High", delivery_location := (0, 0),
        delivery_window_start := 0, priority_score := 0 } = 4.5 :=
  (claim_C8 _).2 rfl rfl rfl

/-- One record of DynamicOptimizer.current_state: the per-item dict created
by the goods_in handler (product name, location, timestamp, status) together
with the destination and dispatch_time keys that the goods_out handler adds.
A missing key is modelled as none. -/
structure ItemRec where
  productName : String
  location : String
  timestamp : ℚ
  status : String
  destination : Option String
  dispatch_time : Option ℚ
deriving DecidableEq

/-- The store of per-item record objects. The source mutates these dicts in
place, so a record is identified by its index in the store and an in-place
mutation is a pointwise write; two references to the same index alias the
same record. -/
abbrev RecStore := List ItemRec

/-- DynamicOptimizer.current_state: a dict from product id to a reference to
a per-item record in the shared store. -/
abbrev SystemState := List (String × Nat)

/-- Dict membership and lookup on current_state (product_id in
self.current_state followed by self.current_state indexing). -/
def lookupRef (s : SystemState) (pid : String) : Option Nat :=
  (s.find? (fun e => decide (e.1 = pid))).map (fun e => e.2)

/-- Reading the record of one product through a state: resolve the reference
and read the shared store. -/
def readItem (h : RecStore) (s : SystemState) (pid : String) : Option ItemRec :=
  (lookupRef s pid).bind (fun r => h[r]?)

/-- An in-place write of the status key of the record object at index r,
modelling a caller that assigns to a record dict it reached through a
returned state (snapshot or live). -/
def writeStatus (h : RecStore) (r : Nat) (st : String) : RecStore :=
  match h[r]? with
  | none => h
  | some itm => h.set r { itm with status := st }

/-- DynamicOptimizer._handle_goods_out: when product_id is a key of
current_state the handler mutates the record in place, setting status to
dispatched and overwriting destination and dispatch_time with the event
destination and datetime.now(); an unknown id is a silent no-op. The store
is the only thing mutated; the id-to-reference table is untouched. -/
def handle_goods_out (h : RecStore) (s : SystemState) (pid dest : String)
    (now : ℚ) : RecStore :=
  match lookupRef s pid with
  | none => h
  | some r =>
    match h[r]? with
    | none => h
    | some itm =>
      h.set r { itm with status := "dispatched", destination := some dest,
                         dispatch_time := some now }

/-- DynamicOptimizer.get_current_state: returns self.current_state.copy().
dict.copy() is shallow: the returned dict is a fresh top-level object whose
values are the very same record objects, so the snapshot maps every product
id to the same store index as the internal state. -/
def get_current_state (s : SystemState) : SystemState := s

/-- The list comprehension of _should_optimize: the values of current_state
whose status is available. -/
def availableItems (h : RecStore) (s : SystemState) : List ItemRec :=
  (s.filterMap (fun e => h[e.2]?)).filter (fun itm => decide (itm.status = "available"))

/-- The default optimization interval set in DynamicOptimizer.__init__
(300 seconds). -/
def optimization_interval : ℚ := 300

/-- DynamicOptimizer._should_optimize: fire when no optimization ran before;
otherwise refuse while the elapsed time since the last one is below the
interval, then refuse while fewer than 5 items are available, else fire.
last is self.last_optimization and now is datetime.now(). -/
def should_optimize (last : Option ℚ) (now interval : ℚ) (h : RecStore)
    (s : SystemState) : Bool :=
  match last with
  | none => true
  | some t =>
    if now - t < interval then false
    else if (availableItems h s).length < 5 then false
    else true

/-- C4: the re-optimization trigger is true exactly when either no prior
optimization has run, or the time since the last one is at least the
configured interval and at least five items are available. It always fires
on the first-ever invocation whatever the item count, and with a recorded
last run it stays false at every instant within the interval no matter what
events arrive (events only change the store and the item table, which the
early time test never consults). The configured default interval is 300. -/
theorem claim_C4 (last : Option ℚ) (now interval : ℚ) (h : RecStore)
    (s : SystemState) :
    (should_optimize last now interval h s = true ↔
      (last = none ∨ ∃ t, last = some t ∧ interval ≤ now - t ∧
        5 ≤ (availableItems h s).length))
    ∧ (∀ t, now - t < interval →
        ∀ h2 s2, should_optimize (some t) now interval h2 s2 = false)
    ∧ should_optimize none now interval h s = true
    ∧ optimization_interval = 300 := by
  refine ⟨?_, ?_, rfl, rfl⟩
  · cases last with
    | none => simp [should_optimize]
    | some t =>
      by_cases h1 : now - t < interval
      · simp [should_optimize, h1, not_le.mpr h1]
      · by_cases h2 : (availableItems h s).length < 5
        · simp [should_optimize, h1, h2, not_le.mpr h2, not_lt.mp h1]
        · simp [should_optimize, h1, h2, not_lt.mp h1, not_lt.mp h2]
  · intro t ht h2 s2
    simp [should_optimize, ht]

/-- Witness for C4: with a last run recorded at time 100 the trigger is
false at time 100 (zero elapsed, below the interval 300) whatever the state,
and on a controller that never optimized it fires immediately on an empty
state. -/
theorem claim_C4_witness :
    should_optimize (some 100) 100 300 [] [] = false
    ∧ should_optimize none 0 300 [] [] = true :=
  ⟨(claim_C4 (some 100) 100 300 [] []).2.1 100 (by rw [sub_self]; decide) [] [],
   (claim_C4 none 0 300 [] []).2.2.1⟩

/-- C6 counterexample: the goods_out handler is not a no-op on an item that
is already dispatched. Replaying goods_out with destination Y at time 2 on an
item dispatched to X at time 1 overwrites destination and dispatch_time, so
the state changes. -/
theorem claim_C6_counterexample :
    handle_goods_out
      [{ productName := "Widget", location := "Receiving", timestamp := 0,
         status := "dispatched", destination := some "X", dispatch_time := some 1 }]
      [("A", 0)] "A" "Y" 2
    ≠ [{ productName := "Widget", location := "Receiving", timestamp := 0,
         status := "dispatched", destination := some "X", dispatch_time := some 1 }] := by
  decide

/-- Unfolding equation of the goods_out handler on a known item. -/
theorem handle_goods_out_eq (h : RecStore) (s : SystemState) (pid dest : String)
    (now : ℚ) (r : Nat) (itm : ItemRec)
    (hr : lookupRef s pid = some r) (hi : h[r]? = some itm) :
    handle_goods_out h s pid dest now =
      h.set r { itm with status := "dispatched", destination := some dest,
                         dispatch_time := some now } := by
  simp [handle_goods_out, hr, hi]

/-- C6 amended: a goods_out event on an Available item sets its status to
Dispatched, and a replayed goods_out raises no error and leaves the status
at Dispatched, so the Available-to-Dispatched transition happens exactly
once; but the replay is not a full no-op: the handler never inspects the
current status and overwrites destination and dispatch_time with the values
of the replayed event. -/
theorem claim_C6_amended (h : RecStore) (s : SystemState) (pid : String)
    (r : Nat) (itm : ItemRec) (d1 d2 : String) (t1 t2 : ℚ)
    (hr : lookupRef s pid = some r) (hi : h[r]? = some itm)
    (_hav : itm.status = "available") :
    readItem (handle_goods_out h s pid d1 t1) s pid =
      some { itm with status := "dispatched", destination := some d1,
                      dispatch_time := some t1 }
    ∧ readItem (handle_goods_out (handle_goods_out h s pid d1 t1) s pid d2 t2) s pid =
      some { itm with status := "dispatched", destination := some d2,
                      dispatch_time := some t2 } := by
  have hlt : r < h.length := (List.getElem?_eq_some.mp hi).1
  have h1def := handle_goods_out_eq h s pid d1 t1 r itm hr hi
  have h1get : (handle_goods_out h s pid d1 t1)[r]? =
      some { itm with status := "dispatched", destination := some d1,
                      dispatch_time := some t1 } := by
    simp [h1def, List.getElem?_set, hlt]
  constructor
  · simp [readItem, hr, h1get]
  · have h2def := handle_goods_out_eq (handle_goods_out h s pid d1 t1) s pid d2 t2 r
      { itm with status := "dispatched", destination := some d1,
                 dispatch_time := some t1 } hr h1get
    have hlt1 : r < (handle_goods_out h s pid d1 t1).length := by
      simp [h1def, hlt]
    simp [readItem, hr, h2def, List.getElem?_set, hlt1]

/-- Witness for C6 amended: one concrete available item dispatched twice. -/
theorem claim_C6_witness :
    readItem
      (handle_goods_out
        [{ productName := "Widget", location := "Receiving", timestamp := 0,
           status := "available", destination := none, dispatch_time := none }]
        [("A", 0)] "A" "X" 1)
      [("A", 0)] "A" =
      some { productName := "Widget", location := "Receiving", timestamp := 0,
             status := "dispatched", destination := some "X", dispatch_time := some 1 }
    ∧ readItem
        (handle_goods_out
          (handle_goods_out
            [{ productName := "Widget", location := "Receiving", timestamp := 0,
               status := "available", destination := none, dispatch_time := none }]
            [("A", 0)] "A" "X" 1)
          [("A", 0)] "A" "Y" 2)
        [("A", 0)] "A" =
      some { productName := "Widget", location := "Receiving", timestamp := 0,
             status := "dispatched", destination := some "Y", dispatch_time := some 2 } :=
  claim_C6_amended
    [{ productName := "Widget", location := "Receiving", timestamp := 0,
       status := "available", destination := none, dispatch_time := none }]
    [("A", 0)] "A" 0
    { productName := "Widget", location := "Receiving", timestamp := 0,
      status := "available", destination := none, dispatch_time := none }
    "X" "Y" 1 2 (by decide) (by decide) rfl

/-- C9 counterexample: get_current_state is a shallow copy, so the claim
fails both ways at a concrete one-item state. The snapshot resolves product
A to the same shared record (index 0) as the internal state; writing the
status of that record through the snapshot changes what the internal state
reads, and a later controller mutation (a goods_out) changes what the
previously returned snapshot reads. -/
theorem claim_C9_counterexample :
    lookupRef
      (get_current_state [("A", 0)]) "A" = some 0
    ∧ readItem
        (writeStatus
          [{ productName := "Widget", location := "Receiving", timestamp := 0,
             status := "available", destination := none, dispatch_time := none }]
          0 "tampered")
        [("A", 0)] "A"
      ≠ readItem
          [{ productName := "Widget", location := "Receiving", timestamp := 0,
             status := "available", destination := none, dispatch_time := none }]
          [("A", 0)] "A"
    ∧ readItem
        (handle_goods_out
          [{ productName := "Widget", location := "Receiving", timestamp := 0,
             status := "available", destination := none, dispatch_time := none }]
          [("A", 0)] "A" "Depot7" 5)
        (get_current_state [("A", 0)]) "A"
      ≠ readItem
          [{ productName := "Widget", location := "Receiving", timestamp := 0,
             status := "available", destination := none, dispatch_time := none }]
          (get_current_state [("A", 0)]) "A" := by
  refine ⟨by decide, by decide, by decide⟩

/-- C9 amended: get_current_state returns a shallow copy. The top-level dict
is a fresh object with the same entries, so the snapshot is entry-wise equal
to the internal state and resolves every product id to the same shared
record; consequently writing a record field through a reference obtained
from the snapshot updates the record that the internal state reads. Only
top-level additions and removals on the snapshot are isolated from the
controller. -/
theorem claim_C9_amended (h : RecStore) (s : SystemState) (pid st : String)
    (r : Nat) (itm : ItemRec)
    (hr : lookupRef (get_current_state s) pid = some r)
    (hi : h[r]? = some itm) :
    get_current_state s = s
    ∧ readItem h (get_current_state s) pid = readItem h s pid
    ∧ readItem (writeStatus h r st) s pid = some { itm with status := st } := by
  have hr2 : lookupRef s pid = some r := hr
  have hlt : r < h.length := (List.getElem?_eq_some.mp hi).1
  have hw : writeStatus h r st = h.set r { itm with status := st } := by
    simp [writeStatus, hi]
  refine ⟨rfl, rfl, ?_⟩
  simp [readItem, hr2, hw, List.getElem?_set, hlt]

/-- Witness for C9 amended: tampering with the record of product A through
the snapshot of a concrete one-item state is visible to the internal state. -/
theorem claim_C9_witness :
    readItem
      (writeStatus
        [{ productName := "Widget", location := "Receiving", timestamp := 0,
           status := "available", destination := none, dispatch_time := none }]
        0 "tampered")
      [("A", 0)] "A" =
      some { productName := "Widget", location := "Receiving", timestamp := 0,
             status := "tampered", destination := none, dispatch_time := none } :=
  (claim_C9_amended
    [{ productName := "Widget", location := "Receiving", timestamp := 0,
       status := "available", destination := none, dispatch_time := none }]
    [("A", 0)] "A" "tampered" 0
    { productName := "Widget", location := "Receiving", timestamp := 0,
      status := "available", destination := none, dispatch_time := none }
    (by decide) (by decide)).2.2

/-- Pointwise update of a dict modelled as a function from its key type. -/
def updFn {α : Type} (f : String → α) (k : String) (v : α) : String → α :=
  fun k2 => if k2 = k then v else f k2

theorem updFn_self {α : Type} (f : String → α) (k : String) (v : α) :
    updFn f k v k = v := by simp [updFn]

theorem updFn_ne {α : Type} (f : String → α) (k k2 : String) (v : α)
    (h : k2 ≠ k) : updFn f k v k2 = f k2 := by simp [updFn, h]

/-- Running state of DispatchPlanner._assign_products_to_vehicles. assign is
the vehicle_assignments dict and wTot and vTot are the two entries of the
vehicle_capacities dict, all keyed by vehicle id. normalA and fallbackA are
ghost instrumentation that split each assignment list by the branch that
produced it (first-fit versus overflow fallback); they influence nothing and
exist only so the theorems can speak about the two paths. -/
structure AssignState where
  assign : String → List Item
  wTot : String → ℚ
  vTot : String → ℚ
  normalA : String → List Item
  fallbackA : String → List Item

/-- The initial dicts of _assign_products_to_vehicles: every vehicle id maps
to an empty assignment list and zero running totals. -/
def initAssign : AssignState :=
  { assign := fun _ => [], wTot := fun _ => 0, vTot := fun _ => 0,
    normalA := fun _ => [], fallbackA := fun _ => [] }

/-- The vehicle test of the inner loop: skip unavailable vehicles, then check
that the running weight and volume totals plus this product stay within the
declared capacity_weight and capacity_volume. -/
def fitsB (st : AssignState) (p : Item) (v : Vehicle) : Bool :=
  v.available && decide (st.wTot v.id + p.weight ≤ v.capacity_weight)
    && decide (st.vTot v.id + p.volume ≤ v.capacity_volume)

/-- Python max(self.vehicles, key=capacity_weight): the first element
attaining the maximal capacity_weight (a later vehicle replaces the running
best only when strictly heavier), none on an empty fleet (where the source
max would raise). -/
def best_vehicle : List Vehicle → Option Vehicle
  | [] => none
  | v :: vs =>
    some (vs.foldl (fun b w => if b.capacity_weight < w.capacity_weight then w else b) v)

/-- One iteration of the product loop of _assign_products_to_vehicles: scan
the vehicles in registration order for the first fit and append the product
there, updating the running totals; when nothing fits, fall back to the
vehicle with the largest capacity_weight and append the product there
without touching the running totals (the source updates vehicle_capacities
only on the first-fit branch). -/
def assignStep (vehicles : List Vehicle) (st : AssignState) (p : Item) : AssignState :=
  match vehicles.find? (fitsB st p) with
  | some v =>
    { assign := updFn st.assign v.id (st.assign v.id ++ [p])
      wTot := updFn st.wTot v.id (st.wTot v.id + p.weight)
      vTot := updFn st.vTot v.id (st.vTot v.id + p.volume)
      normalA := updFn st.normalA v.id (st.normalA v.id ++ [p])
      fallbackA := st.fallbackA }
  | none =>
    match best_vehicle vehicles with
    | some b =>
      { st with
        assign := updFn st.assign b.id (st.assign b.id ++ [p])
        fallbackA := updFn st.fallbackA b.id (st.fallbackA b.id ++ [p]) }
    | none => st

/-- DispatchPlanner._assign_products_to_vehicles: fold the product loop over
the products, starting from empty dicts. -/
def assign_products_to_vehicles (vehicles : List Vehicle) (products : List Item) :
    AssignState :=
  products.foldl (assignStep vehicles) initAssign

theorem sumWeights_snoc (l : List Item) (p : Item) :
    sumWeights (l ++ [p]) = sumWeights l + p.weight := by
  simp [sumWeights]

theorem sumVolumes_snoc (l : List Item) (p : Item) :
    sumVolumes (l ++ [p]) = sumVolumes l + p.volume := by
  simp [sumVolumes]

/-- The result of the Python max fold is an element of the scanned list. -/
theorem bestFold_mem (vs : List Vehicle) : ∀ v : Vehicle,
    vs.foldl (fun b w => if b.capacity_weight < w.capacity_weight then w else b) v
      ∈ v :: vs := by
  induction vs with
  | nil => intro v; simp
  | cons u t ih =>
    intro v
    simp only [List.foldl_cons]
    by_cases hc : v.capacity_weight < u.capacity_weight
    · rw [if_pos hc]
      exact List.mem_cons_of_mem v (ih u)
    · rw [if_neg hc]
      rcases List.mem_cons.mp (ih v) with h1 | h1
      · rw [h1]
        exact List.mem_cons_self v (u :: t)
      · exact List.mem_cons_of_mem v (List.mem_cons_of_mem u h1)

/-- The result of the Python max fold attains the maximal capacity_weight. -/
theorem bestFold_le (vs : List Vehicle) : ∀ v : Vehicle, ∀ w ∈ v :: vs,
    w.capacity_weight ≤
      (vs.foldl (fun b w2 => if b.capacity_weight < w2.capacity_weight then w2 else b)
        v).capacity_weight := by
  induction vs with
  | nil =>
    intro v w hw
    rcases List.mem_cons.mp hw with h1 | h1
    · rw [h1]; simp
    · simp at h1
  | cons u t ih =>
    intro v w hw
    simp only [List.foldl_cons]
    have hvb : v.capacity_weight ≤
        (if v.capacity_weight < u.capacity_weight then u else v).capacity_weight := by
      by_cases hc : v.capacity_weight < u.capacity_weight
      · rw [if_pos hc]; exact le_of_lt hc
      · rw [if_neg hc]
    have hub : u.capacity_weight ≤
        (if v.capacity_weight < u.capacity_weight then u else v).capacity_weight := by
      by_cases hc : v.capacity_weight < u.capacity_weight
      · rw [if_pos hc]
      · rw [if_neg hc]; exact not_lt.mp hc
    have hbase := ih (if v.capacity_weight < u.capacity_weight then u else v)
      (if v.capacity_weight < u.capacity_weight then u else v)
      (List.mem_cons_self _ t)
    rcases List.mem_cons.mp hw with h1 | h1
    · rw [h1]; exact le_trans hvb hbase
    · rcases List.mem_cons.mp h1 with h2 | h2
      · rw [h2]; exact le_trans hub hbase
      · exact ih _ w (List.mem_cons_of_mem _ h2)

/-- A vehicle returned by best_vehicle belongs to the fleet. -/
theorem best_vehicle_mem {vehicles : List Vehicle} {b : Vehicle}
    (h : best_vehicle vehicles = some b) : b ∈ vehicles := by
  cases vehicles with
  | nil => simp [best_vehicle] at h
  | cons v vs =>
    simp only [best_vehicle, Option.some.injEq] at h
    rw [← h]
    exact bestFold_mem vs v

/-- A vehicle returned by best_vehicle has the numerically largest
capacity_weight of the fleet. -/
theorem best_vehicle_le {vehicles : List Vehicle} {b : Vehicle}
    (h : best_vehicle vehicles = some b) :
    ∀ w ∈ vehicles, w.capacity_weight ≤ b.capacity_weight := by
  cases vehicles with
  | nil => simp [best_vehicle] at h
  | cons v vs =>
    simp only [best_vehicle, Option.some.injEq] at h
    rw [← h]
    exact bestFold_le vs v

/-- The multiset of all items held in the assignment lists of a fleet. -/
def bucketSum (vehicles : List Vehicle) (f : String → List Item) : Multiset Item :=
  (vehicles.map (fun v => ((f v.id : List Item) : Multiset Item))).sum

theorem bucketSum_update (vehicles : List Vehicle) (f : String → List Item)
    (v : Vehicle) (p : Item) (hnd : (vehicles.map Vehicle.id).Nodup)
    (hv : v ∈ vehicles) :
    bucketSum vehicles (updFn f v.id (f v.id ++ [p]))
      = bucketSum vehicles f + {p} := by
  induction vehicles with
  | nil => simp at hv
  | cons w t ih =>
    rw [List.map_cons, List.nodup_cons] at hnd
    rcases List.mem_cons.mp hv with hveq | hvt
    · subst hveq
      have ht : ∀ u ∈ t, updFn f v.id (f v.id ++ [p]) u.id = f u.id := by
        intro u hu
        refine updFn_ne _ _ _ _ (fun hEq => hnd.1 ?_)
        rw [← hEq]
        exact List.mem_map_of_mem Vehicle.id hu
      unfold bucketSum
      simp only [List.map_cons, List.sum_cons]
      rw [updFn_self, List.map_congr_left (fun u hu => by rw [ht u hu])]
      rw [← Multiset.coe_add, Multiset.coe_singleton]
      abel
    · have hwid : w.id ≠ v.id := by
        intro hEq
        exact hnd.1 (hEq ▸ List.mem_map_of_mem Vehicle.id hvt)
      unfold bucketSum
      simp only [List.map_cons, List.sum_cons]
      rw [updFn_ne _ _ _ _ hwid]
      have := ih hnd.2 hvt
      unfold bucketSum at this
      rw [this]
      abel

theorem bucketSum_init (vehicles : List Vehicle) :
    bucketSum vehicles initAssign.assign = 0 := by
  unfold bucketSum initAssign
  induction vehicles with
  | nil => simp
  | cons v t ih => simp [ih]

/-- Each product-loop iteration adds exactly the processed product to the
assignment lists, provided the fleet is non-empty with distinct ids. -/
theorem assignStep_conserves (vehicles : List Vehicle) (hne : vehicles ≠ [])
    (hnd : (vehicles.map Vehicle.id).Nodup) (st : AssignState) (p : Item) :
    bucketSum vehicles (assignStep vehicles st p).assign
      = bucketSum vehicles st.assign + {p} := by
  rcases hf : vehicles.find? (fitsB st p) with _ | v
  · rcases hb : best_vehicle vehicles with _ | b
    · cases vehicles with
      | nil => exact absurd rfl hne
      | cons v vs => simp [best_vehicle] at hb
    · have hbmem := best_vehicle_mem hb
      simp only [assignStep, hf, hb]
      exact bucketSum_update vehicles st.assign b p hnd hbmem
  · have hvm := List.mem_of_find?_eq_some hf
    simp only [assignStep, hf]
    exact bucketSum_update vehicles st.assign v p hnd hvm

theorem assign_fold_conserves (vehicles : List Vehicle) (hne : vehicles ≠ [])
    (hnd : (vehicles.map Vehicle.id).Nodup) :
    ∀ (products : List Item) (st : AssignState),
      bucketSum vehicles (products.foldl (assignStep vehicles) st).assign
        = bucketSum vehicles st.assign + ↑products := by
  intro products
  induction products with
  | nil => intro st; simp
  | cons p ps ih =>
    intro st
    simp only [List.foldl_cons]
    rw [ih (assignStep vehicles st p),
      assignStep_conserves vehicles hne hnd st p, add_assoc,
      Multiset.singleton_add, Multiset.cons_coe]

theorem fitsB_true {st : AssignState} {p : Item} {v : Vehicle}
    (h : fitsB st p v = true) :
    v.available = true ∧ st.wTot v.id + p.weight ≤ v.capacity_weight
      ∧ st.vTot v.id + p.volume ≤ v.capacity_volume := by
  simp only [fitsB, Bool.and_eq_true, decide_eq_true_eq] at h
  exact ⟨h.1.1, h.1.2, h.2⟩

/-- Loop invariant of _assign_products_to_vehicles over a fleet with distinct
ids: the running totals equal the weight and volume sums of the items placed
by the first-fit branch and stay within the declared capacities, and each
assignment list is, as a multiset, the union of its first-fit part and its
fallback part. -/
def CapInv (vehicles : List Vehicle) (st : AssignState) : Prop :=
  ∀ v ∈ vehicles,
    st.wTot v.id ≤ v.capacity_weight ∧ st.vTot v.id ≤ v.capacity_volume
    ∧ st.wTot v.id = sumWeights (st.normalA v.id)
    ∧ st.vTot v.id = sumVolumes (st.normalA v.id)
    ∧ ((st.assign v.id : List Item) : Multiset Item)
        = ↑(st.normalA v.id) + ↑(st.fallbackA v.id)

theorem capinv_init (vehicles : List Vehicle)
    (hcap : ∀ v ∈ vehicles, 0 ≤ v.capacity_weight ∧ 0 ≤ v.capacity_volume) :
    CapInv vehicles initAssign := by
  intro v hv
  obtain ⟨h1, h2⟩ := hcap v hv
  refine ⟨h1, h2, by simp [initAssign, sumWeights], by simp [initAssign, sumVolumes], ?_⟩
  simp [initAssign]

theorem assignStep_capinv (vehicles : List Vehicle)
    (hnd : (vehicles.map Vehicle.id).Nodup) (st : AssignState) (p : Item)
    (hinv : CapInv vehicles st) : CapInv vehicles (assignStep vehicles st p) := by
  intro u hu
  rcases hf : vehicles.find? (fitsB st p) with _ | v
  · rcases hb : best_vehicle vehicles with _ | b
    · simp only [assignStep, hf, hb]
      exact hinv u hu
    · have hbmem := best_vehicle_mem hb
      simp only [assignStep, hf, hb]
      obtain ⟨hw, hv2, hws, hvs, hm⟩ := hinv u hu
      by_cases hid : u.id = b.id
      · have hub : u = b := List.inj_on_of_nodup_map hnd hu hbmem hid
        subst hub
        rw [updFn_self, updFn_self]
        refine ⟨hw, hv2, hws, hvs, ?_⟩
        rw [← Multiset.coe_add, ← Multiset.coe_add, hm]
        abel
      · rw [updFn_ne _ _ _ _ hid, updFn_ne _ _ _ _ hid]
        exact ⟨hw, hv2, hws, hvs, hm⟩
  · have hvm := List.mem_of_find?_eq_some hf
    have hfit := fitsB_true (List.find?_some hf)
    simp only [assignStep, hf]
    obtain ⟨hw, hv2, hws, hvs, hm⟩ := hinv u hu
    by_cases hid : u.id = v.id
    · have huv : u = v := List.inj_on_of_nodup_map hnd hu hvm hid
      subst huv
      rw [updFn_self, updFn_self, updFn_self, updFn_self]
      refine ⟨hfit.2.1, hfit.2.2, ?_, ?_, ?_⟩
      · rw [sumWeights_snoc, ← hws]
      · rw [sumVolumes_snoc, ← hvs]
      · rw [← Multiset.coe_add, ← Multiset.coe_add, hm]
        abel
    · rw [updFn_ne _ _ _ _ hid, updFn_ne _ _ _ _ hid, updFn_ne _ _ _ _ hid,
        updFn_ne _ _ _ _ hid]
      exact ⟨hw, hv2, hws, hvs, hm⟩

theorem capinv_fold (vehicles : List Vehicle)
    (hnd : (vehicles.map Vehicle.id).Nodup) :
    ∀ (products : List Item) (st : AssignState), CapInv vehicles st →
      CapInv vehicles (products.foldl (assignStep vehicles) st) := by
  intro products
  induction products with
  | nil => intro st h; exact h
  | cons p ps ih =>
    intro st h
    simp only [List.foldl_cons]
    exact ih _ (assignStep_capinv vehicles hnd st p h)

/-- C1 amended: over a fleet with distinct ids and non-negative declared
capacities, the weight and volume sums of the items placed on a vehicle by
the normal first-fit branch never exceed that vehicle's capacity_weight and
capacity_volume, and whenever the fallback branch placed nothing on a
vehicle its full assignment also respects both capacities, so totals can
exceed a capacity only through the overflow-tolerant fallback. The source
however does not flag the fallback: the returned dict is its only output and
the counterexample shows a fallback run indistinguishable from a normal
run. -/
theorem claim_C1 (vehicles : List Vehicle) (products : List Item)
    (hnd : (vehicles.map Vehicle.id).Nodup)
    (hcap : ∀ v ∈ vehicles, 0 ≤ v.capacity_weight ∧ 0 ≤ v.capacity_volume) :
    ∀ v ∈ vehicles,
      sumWeights ((assign_products_to_vehicles vehicles products).normalA v.id)
          ≤ v.capacity_weight
      ∧ sumVolumes ((assign_products_to_vehicles vehicles products).normalA v.id)
          ≤ v.capacity_volume
      ∧ ((assign_products_to_vehicles vehicles products).fallbackA v.id = [] →
          sumWeights ((assign_products_to_vehicles vehicles products).assign v.id)
              ≤ v.capacity_weight
          ∧ sumVolumes ((assign_products_to_vehicles vehicles products).assign v.id)
              ≤ v.capacity_volume) := by
  intro v hv
  simp only [assign_products_to_vehicles]
  have hinv := capinv_fold vehicles hnd products initAssign (capinv_init vehicles hcap) v hv
  obtain ⟨hw, hv2, hws, hvs, hm⟩ := hinv
  refine ⟨hws ▸ hw, hvs ▸ hv2, ?_⟩
  intro hfb
  rw [hfb] at hm
  simp only [Multiset.coe_nil, add_zero] at hm
  have hperm : ((List.foldl (assignStep vehicles) initAssign products).assign v.id).Perm
      ((List.foldl (assignStep vehicles) initAssign products).normalA v.id) :=
    Multiset.coe_eq_coe.mp hm
  have hsw : sumWeights ((List.foldl (assignStep vehicles) initAssign products).assign v.id)
      = sumWeights ((List.foldl (assignStep vehicles) initAssign products).normalA v.id) :=
    (hperm.map Item.weight).sum_eq
  have hsv : sumVolumes ((List.foldl (assignStep vehicles) initAssign products).assign v.id)
      = sumVolumes ((List.foldl (assignStep vehicles) initAssign products).normalA v.id) :=
    (hperm.map Item.volume).sum_eq
  constructor
  · rw [hsw, ← hws]; exact hw
  · rw [hsv, ← hvs]; exact hv2

/-- Concrete fixture for C1 and C5: one weight-5 unit-volume product. -/
def c1item : Item :=
  { name := "P", weight := 5, length := 1, width := 1, height := 1,
    fragile := false, priority := some "Medium", delivery_location := (1, 1),
    delivery_window_start := 0, priority_score := 2 }

/-- Concrete fixture: vehicle V1 of capacity 10 and 100, marked unavailable,
so every product reaches it only through the fallback branch. -/
def c1vehBusy : Vehicle :=
  { id := "V1", capacity_weight := 10, capacity_volume := 100,
    fuel_efficiency := 10, operating_cost_per_km := 5, available := false }

/-- Concrete fixture: the same vehicle V1, available. -/
def c1vehFree : Vehicle :=
  { id := "V1", capacity_weight := 10, capacity_volume := 100,
    fuel_efficiency := 10, operating_cost_per_km := 5, available := true }

theorem c1_fitsB_busy : fitsB initAssign c1item c1vehBusy = false := by
  simp [fitsB, c1vehBusy]

theorem c1_fitsB_free : fitsB initAssign c1item c1vehFree = true := by
  simp only [fitsB, c1vehFree, c1item, initAssign, Item.volume, Bool.and_eq_true,
    decide_eq_true_eq]
  norm_num

theorem c1_find_busy : [c1vehBusy].find? (fitsB initAssign c1item) = none := by
  simp [List.find?, c1_fitsB_busy]

theorem c1_find_free : [c1vehFree].find? (fitsB initAssign c1item) = some c1vehFree := by
  simp [List.find?, c1_fitsB_free]

/-- Full evaluation of the assigner on the unavailable-vehicle run: the
product is placed by the fallback branch and the running totals stay zero. -/
theorem c1_busy_eval : assign_products_to_vehicles [c1vehBusy] [c1item] =
    { assign := updFn (fun _ => []) "V1" [c1item], wTot := fun _ => 0,
      vTot := fun _ => 0, normalA := fun _ => [],
      fallbackA := updFn (fun _ => []) "V1" [c1item] } := by
  simp only [assign_products_to_vehicles, List.foldl_cons, List.foldl_nil,
    assignStep, c1_find_busy, best_vehicle]
  rfl

/-- Full evaluation of the assigner on the available-vehicle run: the product
is placed by the first-fit branch. -/
theorem c1_free_eval : assign_products_to_vehicles [c1vehFree] [c1item] =
    { assign := updFn (fun _ => []) "V1" [c1item],
      wTot := updFn (fun _ => 0) "V1" (0 + c1item.weight),
      vTot := updFn (fun _ => 0) "V1" (0 + c1item.volume),
      normalA := updFn (fun _ => []) "V1" [c1item], fallbackA := fun _ => [] } := by
  simp only [assign_products_to_vehicles, List.foldl_cons, List.foldl_nil,
    assignStep, c1_find_free]
  rfl

/-- C1 counterexample: the fallback path is not flagged and not detectable.
The dict of assignment lists is the only output of
_assign_products_to_vehicles, and the run against the unavailable vehicle V1
(where weight-5 product P is placed by the overflow-tolerant fallback)
returns exactly the same dict as the run against the available V1 (where P
is placed by the normal first-fit path): the fallback run is silently
accepted and indistinguishable from the normal one. -/
theorem claim_C1_counterexample :
    (assign_products_to_vehicles [c1vehBusy] [c1item]).assign
      = (assign_products_to_vehicles [c1vehFree] [c1item]).assign
    ∧ (assign_products_to_vehicles [c1vehBusy] [c1item]).fallbackA "V1" = [c1item]
    ∧ (assign_products_to_vehicles [c1vehFree] [c1item]).fallbackA "V1" = [] := by
  rw [c1_busy_eval, c1_free_eval]
  refine ⟨rfl, ?_, rfl⟩
  simp [updFn_self]

/-- Witness for C1 amended on a concrete run that never uses the fallback:
the full assignment of V1 stays within both capacities. -/
theorem claim_C1_witness :
    sumWeights ((assign_products_to_vehicles [c1vehFree] [c1item]).assign c1vehFree.id)
        ≤ c1vehFree.capacity_weight
    ∧ sumVolumes ((assign_products_to_vehicles [c1vehFree] [c1item]).assign c1vehFree.id)
        ≤ c1vehFree.capacity_volume :=
  ((claim_C1 [c1vehFree] [c1item] (by decide) (by decide) c1vehFree (by decide)).2.2
    (by rw [c1_free_eval]))

theorem best_vehicle_isSome {vehicles : List Vehicle} (hne : vehicles ≠ []) :
    ∃ b, best_vehicle vehicles = some b := by
  cases vehicles with
  | nil => exact absurd rfl hne
  | cons v vs => exact ⟨_, rfl⟩

/-- C5: over a non-empty fleet with distinct ids, the assigner drops and
duplicates nothing: the multiset union of all assignment lists equals the
input product list. Moreover whenever a product fits no vehicle (each
vehicle either unavailable or out of remaining capacity), the step assigns
it to the first vehicle attaining the numerically largest capacity_weight,
appending it to that vehicle regardless of its remaining capacity. -/
theorem claim_C5 (vehicles : List Vehicle)
    (hne : vehicles ≠ []) (hnd : (vehicles.map Vehicle.id).Nodup) :
    (∀ products : List Item,
      bucketSum vehicles (assign_products_to_vehicles vehicles products).assign
        = ↑products)
    ∧ ∀ (st : AssignState) (p : Item), (∀ v ∈ vehicles, fitsB st p v = false) →
        ∃ b, best_vehicle vehicles = some b ∧ b ∈ vehicles
          ∧ (∀ w ∈ vehicles, w.capacity_weight ≤ b.capacity_weight)
          ∧ (assignStep vehicles st p).assign b.id = st.assign b.id ++ [p] := by
  constructor
  · intro products
    unfold assign_products_to_vehicles
    rw [assign_fold_conserves vehicles hne hnd products initAssign,
      bucketSum_init, zero_add]
  · intro st p hall
    have hfind : vehicles.find? (fitsB st p) = none :=
      List.find?_eq_none.mpr (fun v hv => by simp [hall v hv])
    obtain ⟨b, hb⟩ := best_vehicle_isSome hne
    refine ⟨b, hb, best_vehicle_mem hb, best_vehicle_le hb, ?_⟩
    simp only [assignStep, hfind, hb]
    rw [updFn_self]

/-- Witness for C5: the conservation part on a concrete one-vehicle
one-product run, and the fallback part on a concrete product that fits no
vehicle of the fleet (the only vehicle is unavailable). -/
theorem claim_C5_witness :
    (bucketSum [c1vehFree] (assign_products_to_vehicles [c1vehFree] [c1item]).assign
      = ↑[c1item])
    ∧ ∃ b, best_vehicle [c1vehBusy] = some b ∧ b ∈ [c1vehBusy]
        ∧ (∀ w ∈ [c1vehBusy], w.capacity_weight ≤ b.capacity_weight)
        ∧ (assignStep [c1vehBusy] initAssign c1item).assign b.id
            = initAssign.assign b.id ++ [c1item] :=
  ⟨(claim_C5 [c1vehFree] (by decide) (by decide)).1 [c1item],
   (claim_C5 [c1vehBusy] (by decide) (by decide)).2 initAssign c1item (by decide)⟩

/-- A 2D delivery location or the warehouse. -/
abbrev Point := ℚ × ℚ

/-- The warehouse location (0, 0) from which every route starts and to which
it returns. -/
def depot : Point := (0, 0)

/-- Squared Euclidean distance, in exact rational arithmetic. The source
compares square roots of these values; the bridge lemmas below show the two
orderings coincide, so the computable nearest choice below picks exactly the
vehicle loop minimum. -/
def sqDist (a b : Point) : ℚ := (a.1 - b.1) ^ 2 + (a.2 - b.2) ^ 2

/-- DispatchPlanner.calculate_distance: Euclidean distance
sqrt((x1-x2)^2 + (y1-y2)^2). -/
noncomputable def calculate_distance (a b : Point) : ℝ :=
  Real.sqrt (((a.1 : ℝ) - (b.1 : ℝ)) ^ 2 + ((a.2 : ℝ) - (b.2 : ℝ)) ^ 2)

theorem sqDist_nonneg (a b : Point) : 0 ≤ sqDist a b :=
  add_nonneg (sq_nonneg _) (sq_nonneg _)

theorem calculate_distance_eq (a b : Point) :
    calculate_distance a b = Real.sqrt ((sqDist a b : ℚ) : ℝ) := by
  unfold calculate_distance sqDist
  congr 1
  push_cast
  ring

theorem calc_lt_iff (c p q : Point) :
    calculate_distance c p < calculate_distance c q ↔ sqDist c p < sqDist c q := by
  rw [calculate_distance_eq, calculate_distance_eq,
    Real.sqrt_lt_sqrt_iff (by exact_mod_cast sqDist_nonneg c p)]
  exact_mod_cast Iff.rfl

theorem calc_le_iff (c p q : Point) :
    calculate_distance c p ≤ calculate_distance c q ↔ sqDist c p ≤ sqDist c q := by
  rw [calculate_distance_eq, calculate_distance_eq,
    Real.sqrt_le_sqrt_iff (by exact_mod_cast sqDist_nonneg c q)]
  exact_mod_cast Iff.rfl

/-- Python min(unvisited, key=distance from current_location): fold over the
remaining candidates keeping the first minimum (a later candidate replaces
the running best only when strictly closer). -/
def nearestAux (cur : Point) : Item → List Item → Item
  | b, [] => b
  | b, p :: ps =>
    nearestAux cur
      (if sqDist cur p.delivery_location < sqDist cur b.delivery_location then p else b) ps

/-- The while loop of _optimize_single_route, producing the stop order: pick
the nearest unvisited item, append it, move there, remove it from the
unvisited list (unvisited.remove drops the first equal element), repeat. The
fuel argument counts the remaining iterations; it starts at the length of
the list, which the loop consumes one element per iteration. -/
def nnRouteAux (cur : Point) : List Item → ℕ → List Item
  | _, 0 => []
  | [], _ => []
  | p :: ps, fuel + 1 =>
    let nxt := nearestAux cur p ps
    nxt :: nnRouteAux nxt.delivery_location ((p :: ps).erase nxt) fuel

/-- The stop order of the route built for one vehicle. -/
def nnRoute (products : List Item) : List Item :=
  nnRouteAux depot products products.length

/-- The total_distance accumulator of the same loop: add the hop to each
chosen stop and, once the unvisited list is empty, the return leg to the
warehouse. -/
noncomputable def nnTotalAux (cur : Point) : List Item → ℕ → ℝ
  | _, 0 => calculate_distance cur depot
  | [], _ => calculate_distance cur depot
  | p :: ps, fuel + 1 =>
    let nxt := nearestAux cur p ps
    calculate_distance cur nxt.delivery_location
      + nnTotalAux nxt.delivery_location ((p :: ps).erase nxt) fuel

/-- The total_distance reported for a route (before the source rounds it to
two decimals for display). -/
noncomputable def total_distance (products : List Item) : ℝ :=
  nnTotalAux depot products products.length

/-- Specification-side path length of a stop sequence: the sum of the
consecutive Euclidean hop distances from the start point through every stop
in order, plus the final return leg to the depot. -/
noncomputable def pathSum (cur : Point) : List Item → ℝ
  | [] => calculate_distance cur depot
  | p :: ps => calculate_distance cur p.delivery_location + pathSum p.delivery_location ps

/-- Specification-side statement that x is the nearest-neighbour choice of a
candidate list with ties broken by input order: the list splits around x,
every earlier candidate is strictly farther and every later one at least as
far (Euclidean distance from cur). -/
def FirstMin (cur : Point) (l : List Item) (x : Item) : Prop :=
  ∃ l1 l2, l = l1 ++ x :: l2
    ∧ (∀ y ∈ l1, calculate_distance cur x.delivery_location
        < calculate_distance cur y.delivery_location)
    ∧ (∀ y ∈ l2, calculate_distance cur x.delivery_location
        ≤ calculate_distance cur y.delivery_location)

/-- Specification-side statement that a stop sequence is the greedy
nearest-neighbour order over the remaining items: each stop is the first
minimum of the current remaining list, which then loses that stop. -/
def IsNNRoute : Point → List Item → List Item → Prop
  | _, remaining, [] => remaining = []
  | cur, remaining, s :: rest =>
    FirstMin cur remaining s ∧ IsNNRoute s.delivery_location (remaining.erase s) rest

/-- Characterization of the Python min fold over squared distances: either
nothing in the list beats the seed and the fold returns the seed, which is
at least as close as everything scanned, or the fold returns the first list
element attaining the minimum: strictly closer than the seed, strictly
closer than every earlier element, at least as close as every later one. -/
theorem nearestAux_spec (cur : Point) : ∀ (l : List Item) (b : Item),
    (nearestAux cur b l = b
      ∧ ∀ y ∈ l, sqDist cur b.delivery_location ≤ sqDist cur y.delivery_location)
    ∨ (∃ l1 l2, l = l1 ++ nearestAux cur b l :: l2
        ∧ sqDist cur (nearestAux cur b l).delivery_location
            < sqDist cur b.delivery_location
        ∧ (∀ y ∈ l1, sqDist cur (nearestAux cur b l).delivery_location
            < sqDist cur y.delivery_location)
        ∧ (∀ y ∈ l2, sqDist cur (nearestAux cur b l).delivery_location
            ≤ sqDist cur y.delivery_location)) := by
  intro l
  induction l with
  | nil =>
    intro b
    left
    exact ⟨rfl, by simp⟩
  | cons a t ih =>
    intro b
    by_cases hc : sqDist cur a.delivery_location < sqDist cur b.delivery_location
    · have hred : nearestAux cur b (a :: t) = nearestAux cur a t := by
        simp [nearestAux, hc]
      rw [hred]
      rcases ih a with ⟨h1, h2⟩ | ⟨l1, l2, hsplit, hlt, hl1, hl2⟩
      · right
        refine ⟨[], t, ?_, ?_, ?_, ?_⟩
        · rw [h1, List.nil_append]
        · rw [h1]; exact hc
        · intro y hy; simp at hy
        · rw [h1]; exact h2
      · right
        refine ⟨a :: l1, l2, ?_, lt_trans hlt hc, ?_, hl2⟩
        · rw [List.cons_append, ← hsplit]
        · intro y hy
          rcases List.mem_cons.mp hy with h3 | h3
          · rw [h3]; exact hlt
          · exact hl1 y h3
    · have hred : nearestAux cur b (a :: t) = nearestAux cur b t := by
        simp [nearestAux, hc]
      rw [hred]
      have hba : sqDist cur b.delivery_location ≤ sqDist cur a.delivery_location :=
        not_lt.mp hc
      rcases ih b with ⟨h1, h2⟩ | ⟨l1, l2, hsplit, hlt, hl1, hl2⟩
      · left
        refine ⟨h1, ?_⟩
        intro y hy
        rcases List.mem_cons.mp hy with h3 | h3
        · rw [h3]; exact hba
        · exact h2 y h3
      · right
        refine ⟨a :: l1, l2, ?_, hlt, ?_, hl2⟩
        · rw [List.cons_append, ← hsplit]
        · intro y hy
          rcases List.mem_cons.mp hy with h3 | h3
          · rw [h3]; exact lt_of_lt_of_le hlt hba
          · exact hl1 y h3

/-- The Python min over a non-empty candidate list is the first element
minimizing the Euclidean distance from the current location. -/
theorem nearestAux_firstMin (cur : Point) (p : Item) (ps : List Item) :
    FirstMin cur (p :: ps) (nearestAux cur p ps) := by
  rcases nearestAux_spec cur ps p with ⟨h1, h2⟩ | ⟨l1, l2, hsplit, hlt, hl1, hl2⟩
  · refine ⟨[], ps, ?_, ?_, ?_⟩
    · rw [h1]; rfl
    · intro y hy; simp at hy
    · intro y hy
      rw [h1]
      exact (calc_le_iff cur _ _).mpr (h2 y hy)
  · refine ⟨p :: l1, l2, ?_, ?_, ?_⟩
    · rw [List.cons_append, ← hsplit]
    · intro y hy
      rcases List.mem_cons.mp hy with h3 | h3
      · rw [h3]; exact (calc_lt_iff cur _ _).mpr hlt
      · exact (calc_lt_iff cur _ _).mpr (hl1 y h3)
    · intro y hy
      exact (calc_le_iff cur _ _).mpr (hl2 y hy)

theorem nearestAux_mem (cur : Point) : ∀ (l : List Item) (b : Item),
    nearestAux cur b l ∈ b :: l := by
  intro l
  induction l with
  | nil => intro b; simp [nearestAux]
  | cons a t ih =>
    intro b
    by_cases hc : sqDist cur a.delivery_location < sqDist cur b.delivery_location
    · rw [show nearestAux cur b (a :: t) = nearestAux cur a t from by simp [nearestAux, hc]]
      exact List.mem_cons_of_mem b (ih a)
    · rw [show nearestAux cur b (a :: t) = nearestAux cur b t from by simp [nearestAux, hc]]
      rcases List.mem_cons.mp (ih b) with h1 | h1
      · rw [h1]; exact List.mem_cons_self b (a :: t)
      · exact List.mem_cons_of_mem b (List.mem_cons_of_mem a h1)

theorem nnRouteAux_perm : ∀ (fuel : ℕ) (cur : Point) (remaining : List Item),
    remaining.length ≤ fuel → (nnRouteAux cur remaining fuel).Perm remaining := by
  intro fuel
  induction fuel with
  | zero =>
    intro cur remaining h
    rw [Nat.le_zero, List.length_eq_zero] at h
    subst h
    simp [nnRouteAux]
  | succ n ih =>
    intro cur remaining h
    cases remaining with
    | nil => simp [nnRouteAux]
    | cons p ps =>
      have hmem : nearestAux cur p ps ∈ p :: ps := nearestAux_mem cur ps p
      have hlen : ((p :: ps).erase (nearestAux cur p ps)).length ≤ n := by
        have h2 := List.length_erase_add_one hmem
        simp only [List.length_cons] at h2 h
        omega
      have hperm := ih (nearestAux cur p ps).delivery_location
        ((p :: ps).erase (nearestAux cur p ps)) hlen
      show (nearestAux cur p ps
          :: nnRouteAux (nearestAux cur p ps).delivery_location
            ((p :: ps).erase (nearestAux cur p ps)) n).Perm (p :: ps)
      exact (hperm.cons _).trans (List.perm_cons_erase hmem).symm

theorem nnRouteAux_isNN : ∀ (fuel : ℕ) (cur : Point) (remaining : List Item),
    remaining.length ≤ fuel → IsNNRoute cur remaining (nnRouteAux cur remaining fuel) := by
  intro fuel
  induction fuel with
  | zero =>
    intro cur remaining h
    rw [Nat.le_zero, List.length_eq_zero] at h
    subst h
    simp [nnRouteAux, IsNNRoute]
  | succ n ih =>
    intro cur remaining h
    cases remaining with
    | nil => simp [nnRouteAux, IsNNRoute]
    | cons p ps =>
      have hmem : nearestAux cur p ps ∈ p :: ps := nearestAux_mem cur ps p
      have hlen : ((p :: ps).erase (nearestAux cur p ps)).length ≤ n := by
        have h2 := List.length_erase_add_one hmem
        simp only [List.length_cons] at h2 h
        omega
      show FirstMin cur (p :: ps) (nearestAux cur p ps)
        ∧ IsNNRoute (nearestAux cur p ps).delivery_location
            ((p :: ps).erase (nearestAux cur p ps))
            (nnRouteAux (nearestAux cur p ps).delivery_location
              ((p :: ps).erase (nearestAux cur p ps)) n)
      exact ⟨nearestAux_firstMin cur p ps, ih _ _ hlen⟩

theorem nnTotalAux_pathSum : ∀ (fuel : ℕ) (cur : Point) (remaining : List Item),
    remaining.length ≤ fuel →
      nnTotalAux cur remaining fuel = pathSum cur (nnRouteAux cur remaining fuel) := by
  intro fuel
  induction fuel with
  | zero =>
    intro cur remaining h
    rw [Nat.le_zero, List.length_eq_zero] at h
    subst h
    simp [nnTotalAux, nnRouteAux, pathSum]
  | succ n ih =>
    intro cur remaining h
    cases remaining with
    | nil => simp [nnTotalAux, nnRouteAux, pathSum]
    | cons p ps =>
      have hmem : nearestAux cur p ps ∈ p :: ps := nearestAux_mem cur ps p
      have hlen : ((p :: ps).erase (nearestAux cur p ps)).length ≤ n := by
        have h2 := List.length_erase_add_one hmem
        simp only [List.length_cons] at h2 h
        omega
      show calculate_distance cur (nearestAux cur p ps).delivery_location
          + nnTotalAux (nearestAux cur p ps).delivery_location
              ((p :: ps).erase (nearestAux cur p ps)) n
        = pathSum cur (nearestAux cur p ps
            :: nnRouteAux (nearestAux cur p ps).delivery_location
              ((p :: ps).erase (nearestAux cur p ps)) n)
      rw [ih _ _ hlen]
      rfl

/-- C2: for a non-empty list of assigned items the route visits each item
exactly once (the stop list is a permutation of the assigned items), the
stop order is the greedy nearest-neighbour order from the depot with ties
broken by input order (first match), and the accumulated total_distance
equals the sum of the consecutive Euclidean hop distances through the stops
plus the final return leg to the depot. The source rounds the reported
total to two decimals for display; the equality here is about the computed
value. -/
theorem claim_C2 (products : List Item) (_hne : products ≠ []) :
    (nnRoute products).Perm products
    ∧ IsNNRoute depot products (nnRoute products)
    ∧ total_distance products = pathSum depot (nnRoute products) :=
  ⟨nnRouteAux_perm products.length depot products le_rfl,
   nnRouteAux_isNN products.length depot products le_rfl,
   nnTotalAux_pathSum products.length depot products le_rfl⟩

/-- Witness for C2 on a concrete singleton route. -/
theorem claim_C2_witness :
    (nnRoute [c1item]).Perm [c1item]
    ∧ IsNNRoute depot [c1item] (nnRoute [c1item])
    ∧ total_distance [c1item] = pathSum depot (nnRoute [c1item]) :=
  claim_C2 [c1item] (by decide)

/-- The module constant FUEL_PRICE_PER_LITER = 95. -/
def FUEL_PRICE_PER_LITER : ℝ := 95

/-- The costing block of _optimize_single_route, as a function of the route
distance in kilometres and the relevant vehicle and driver parameters:
fuel_cost = (distance_km / fuel_efficiency) * FUEL_PRICE_PER_LITER. -/
noncomputable def fuel_cost (dkm fe : ℝ) : ℝ := dkm / fe * FUEL_PRICE_PER_LITER

/-- operating_cost = distance_km * operating_cost_per_km. -/
noncomputable def operating_cost (dkm opk : ℝ) : ℝ := dkm * opk

/-- driver_cost = (distance_km / 30) * hourly_rate (assumed 30 average
speed). -/
noncomputable def driver_cost (dkm rate : ℝ) : ℝ := dkm / 30 * rate

/-- total_cost = fuel_cost + operating_cost + driver_cost. -/
noncomputable def total_cost (dkm fe opk rate : ℝ) : ℝ :=
  fuel_cost dkm fe + operating_cost dkm opk + driver_cost dkm rate

/-- The unit conversion of _optimize_single_route: the native route distance
times 1.60934 gives total_distance_km. -/
noncomputable def total_distance_km (products : List Item) : ℝ :=
  total_distance products * 1.60934

/-- C3: for every route the cost model satisfies
fuel_cost = (distance_km / fuel_efficiency) * fuel price,
operating_cost = distance_km * operating_cost_per_km,
driver_cost = (distance_km / 30) * hourly_rate, and total_cost is their
exact sum; in particular at distance_km = 100 with fuel_efficiency 10,
operating_cost_per_km 5 and hourly_rate 300 the costs are
(100/10) * FUEL_PRICE_PER_LITER = 950, 500 and (100/30) * 300 = 1000, and
total_cost = 2450. The source rounds each cost to two decimals for display,
which is the identity on these concrete values. -/
theorem claim_C3 (dkm fe opk rate : ℝ) :
    total_cost dkm fe opk rate
      = dkm / fe * FUEL_PRICE_PER_LITER + dkm * opk + dkm / 30 * rate
    ∧ (dkm = 100 → fe = 10 → opk = 5 → rate = 300 →
        fuel_cost dkm fe = 100 / 10 * FUEL_PRICE_PER_LITER
        ∧ fuel_cost dkm fe = 950
        ∧ operating_cost dkm opk = 500
        ∧ driver_cost dkm rate = 1000
        ∧ total_cost dkm fe opk rate = 2450) := by
  constructor
  · rfl
  · intro h1 h2 h3 h4
    subst h1; subst h2; subst h3; subst h4
    refine ⟨rfl, ?_, ?_, ?_, ?_⟩
    · unfold fuel_cost FUEL_PRICE_PER_LITER
      norm_num
    · unfold operating_cost
      norm_num
    · unfold driver_cost
      norm_num
    · unfold total_cost fuel_cost operating_cost driver_cost FUEL_PRICE_PER_LITER
      norm_num

/-- Witness for C3 at the concrete parameters of the spec. -/
theorem claim_C3_witness :
    fuel_cost 100 10 = 100 / 10 * FUEL_PRICE_PER_LITER
    ∧ fuel_cost 100 10 = 950
    ∧ operating_cost 100 5 = 500
    ∧ driver_cost 100 300 = 1000
    ∧ total_cost 100 10 5 300 = 2450 :=
  (claim_C3 100 10 5 300).2 rfl rfl rfl rfl

/-- Descending lexicographic comparison on the sort key
(priority_score, delivery_window_start) used by sorted(..., reverse=True). -/
def keyLeB (a b : Item) : Bool :=
  decide (b.priority_score < a.priority_score
    ∨ (b.priority_score = a.priority_score
        ∧ b.delivery_window_start ≤ a.delivery_window_start))

/-- Stable insertion for the descending sort: an element goes in front of
the first entry whose key is not larger, so earlier input elements stay in
front of later equal-key elements, exactly like Python sorted with
reverse=True. -/
def insertDesc (x : Item) : List Item → List Item
  | [] => [x]
  | b :: bs => if keyLeB x b then x :: b :: bs else b :: insertDesc x bs

/-- The sorted(products, key=(priority_score, delivery_window_start),
reverse=True) call of optimize_routes: a stable descending sort. -/
def sortDesc (l : List Item) : List Item := l.foldr insertDesc []

/-- The calendar date of a delivery_window_start timestamp: with timestamps
counted in days, datetime.date() is the floor. -/
def dateOf (p : Item) : ℤ := Rat.floor p.delivery_window_start

/-- Appending a product to its date group: an existing key keeps its place
in the dict order and its list grows at the end; a new key is appended, as
in a Python dict. -/
def addToGroup (d : ℤ) (p : Item) : List (ℤ × List Item) → List (ℤ × List Item)
  | [] => [(d, [p])]
  | (k, ps) :: rest =>
    if k = d then (k, ps ++ [p]) :: rest else (k, ps) :: addToGroup d p rest

/-- DispatchPlanner._group_by_delivery_date: group the products by the date
of delivery_window_start, keys in first-appearance order, each group in
input order. -/
def group_by_delivery_date (products : List Item) : List (ℤ × List Item) :=
  products.foldl (fun g p => addToGroup (dateOf p) p g) []

/-- The discrete payload of the route dict built by _optimize_single_route:
vehicle, chosen driver, stop order and the item totals. The distance and
cost entries are the separately defined total_distance, total_distance_km,
fuel_cost, operating_cost, driver_cost and total_cost evaluated on the same
stop list, kept outside this structure because they are real-valued. -/
structure RouteCore where
  vehicle_id : String
  driver_id : String
  driver_name : String
  stops : List Item
  products_delivered : ℕ
  total_weight : ℚ
  total_volume : ℚ
deriving DecidableEq

/-- DispatchPlanner._optimize_single_route, discrete payload. The source
picks the driver with random.choice over the available drivers; the choice
is modelled by the explicit selection function chooser, which receives the
filtered list (the source raises when that list is empty; the model simply
applies the total function). -/
def optimize_single_route (vid : String) (products : List Item)
    (drivers : List Driver) (chooser : List Driver → Driver) : RouteCore :=
  let d := chooser (drivers.filter (fun dr => dr.available))
  { vehicle_id := vid, driver_id := d.id, driver_name := d.name,
    stops := nnRoute products, products_delivered := products.length,
    total_weight := sumWeights products, total_volume := sumVolumes products }

/-- The per-date loop body of optimize_routes: assign the sorted products of
one date group to vehicles, then build a route for every vehicle that
received a non-empty list, iterating vehicles in registration order (the
insertion order of the vehicle_assignments dict). -/
def routes_for_group (vehicles : List Vehicle) (drivers : List Driver)
    (chooser : List Driver → Driver) (sorted : List Item) : List RouteCore :=
  let st := assign_products_to_vehicles vehicles sorted
  vehicles.filterMap (fun v =>
    match st.assign v.id with
    | [] => none
    | ps => some (optimize_single_route v.id ps drivers chooser))

/-- DispatchPlanner.optimize_routes: fail fast when the vehicle or driver
registry is empty (the source raises before touching the products), else
group the products by delivery date, sort each group by
(priority_score, delivery_window_start) descending, assign it to vehicles
and build the routes, concatenating the per-date route lists in date
first-appearance order. -/
def optimize_routes (vehicles : List Vehicle) (drivers : List Driver)
    (chooser : List Driver → Driver) (products : List Item) :
    Except String (List RouteCore) :=
  if vehicles = [] then
    .error "No vehicles available. Please add vehicles in the system settings."
  else if drivers = [] then
    .error "No drivers available. Please add drivers in the system settings."
  else
    .ok (((group_by_delivery_date products).map
      (fun g => routes_for_group vehicles drivers chooser (sortDesc g.2))).flatten)

/-- C7: with an empty vehicle registry or an empty driver registry,
optimize_routes fails fast with the corresponding error before any grouping
or assignment: it returns an error and never a route list, whatever the
products. -/
theorem claim_C7 (vehicles : List Vehicle) (drivers : List Driver)
    (chooser : List Driver → Driver) (products : List Item)
    (hempty : vehicles = [] ∨ drivers = []) :
    (∃ msg, optimize_routes vehicles drivers chooser products = .error msg)
    ∧ ∀ rs, optimize_routes vehicles drivers chooser products ≠ .ok rs := by
  have herr : ∃ msg, optimize_routes vehicles drivers chooser products = .error msg := by
    rcases hempty with h | h
    · exact ⟨"No vehicles available. Please add vehicles in the system settings.",
        by simp [optimize_routes, h]⟩
    · by_cases hv : vehicles = []
      · exact ⟨"No vehicles available. Please add vehicles in the system settings.",
          by simp [optimize_routes, hv]⟩
      · exact ⟨"No drivers available. Please add drivers in the system settings.",
          by simp [optimize_routes, hv, h]⟩
  obtain ⟨msg, hmsg⟩ := herr
  refine ⟨⟨msg, hmsg⟩, ?_⟩
  intro rs hok
  rw [hmsg] at hok
  exact Except.noConfusion hok

/-- Witness for C7: one available driver but no vehicle. -/
theorem claim_C7_witness :
    (∃ msg, optimize_routes []
      [{ id := "D1", name := "Asha", max_hours := 8, hourly_rate := 300,
         available := true }]
      (fun l => l.headD
        { id := "D1", name := "Asha", max_hours := 8, hourly_rate := 300,
          available := true })
      [] = .error msg)
    ∧ ∀ rs, optimize_routes []
      [{ id := "D1", name := "Asha", max_hours := 8, hourly_rate := 300,
         available := true }]
      (fun l => l.headD
        { id := "D1", name := "Asha", max_hours := 8, hourly_rate := 300,
          available := true })
      [] ≠ .ok rs :=
  claim_C7 _ _ _ _ (Or.inl rfl)

/-- Fixture for C10: one available vehicle V1 with capacity_weight 10. -/
def c10veh : Vehicle :=
  { id := "V1", capacity_weight := 10, capacity_volume := 1000,
    fuel_efficiency := 10, operating_cost_per_km := 5, available := true }

/-- Fixture for C10: one available driver. -/
def c10drv : Driver :=
  { id := "D1", name := "Asha", max_hours := 8, hourly_rate := 300,
    available := true }

/-- Fixture for C10: a deterministic stand-in for random.choice. -/
def c10chooser : List Driver → Driver := fun l => l.headD c10drv

/-- Fixture for C10: a weight-8 item due on day 0. -/
def c10a : Item :=
  { name := "A", weight := 8, length := 1, width := 1, height := 1,
    fragile := false, priority := some "Medium", delivery_location := (3, 4),
    delivery_window_start := 0, priority_score := 2 }

/-- Fixture for C10: a weight-8 item due on day 1. -/
def c10b : Item :=
  { name := "B", weight := 8, length := 1, width := 1, height := 1,
    fragile := false, priority := some "Medium", delivery_location := (6, 8),
    delivery_window_start := 1, priority_score := 2 }

theorem c10_fitA : fitsB initAssign c10a c10veh = true := by
  simp only [fitsB, c10veh, c10a, initAssign, Item.volume, Bool.and_eq_true,
    decide_eq_true_eq]
  norm_num

theorem c10_fitB : fitsB initAssign c10b c10veh = true := by
  simp only [fitsB, c10veh, c10b, initAssign, Item.volume, Bool.and_eq_true,
    decide_eq_true_eq]
  norm_num

theorem c10_findA : [c10veh].find? (fitsB initAssign c10a) = some c10veh := by
  simp [List.find?, c10_fitA]

theorem c10_findB : [c10veh].find? (fitsB initAssign c10b) = some c10veh := by
  simp [List.find?, c10_fitB]

theorem c10_assignA : assign_products_to_vehicles [c10veh] [c10a] =
    { assign := updFn (fun _ => []) "V1" [c10a],
      wTot := updFn (fun _ => 0) "V1" (0 + c10a.weight),
      vTot := updFn (fun _ => 0) "V1" (0 + c10a.volume),
      normalA := updFn (fun _ => []) "V1" [c10a], fallbackA := fun _ => [] } := by
  simp only [assign_products_to_vehicles, List.foldl_cons, List.foldl_nil,
    assignStep, c10_findA]
  rfl

theorem c10_assignB : assign_products_to_vehicles [c10veh] [c10b] =
    { assign := updFn (fun _ => []) "V1" [c10b],
      wTot := updFn (fun _ => 0) "V1" (0 + c10b.weight),
      vTot := updFn (fun _ => 0) "V1" (0 + c10b.volume),
      normalA := updFn (fun _ => []) "V1" [c10b], fallbackA := fun _ => [] } := by
  simp only [assign_products_to_vehicles, List.foldl_cons, List.foldl_nil,
    assignStep, c10_findB]
  rfl

theorem c10_sortA : sortDesc [c10a] = [c10a] := rfl

theorem c10_sortB : sortDesc [c10b] = [c10b] := rfl

theorem c10_group : group_by_delivery_date [c10a, c10b] = [(0, [c10a]), (1, [c10b])] := by
  decide

theorem c10_routesA : routes_for_group [c10veh] [c10drv] c10chooser (sortDesc [c10a]) =
    [optimize_single_route "V1" [c10a] [c10drv] c10chooser] := by
  simp only [routes_for_group, c10_sortA, c10_assignA]
  rfl

theorem c10_routesB : routes_for_group [c10veh] [c10drv] c10chooser (sortDesc [c10b]) =
    [optimize_single_route "V1" [c10b] [c10drv] c10chooser] := by
  simp only [routes_for_group, c10_sortB, c10_assignB]
  rfl

theorem c10_run : optimize_routes [c10veh] [c10drv] c10chooser [c10a, c10b] =
    .ok [optimize_single_route "V1" [c10a] [c10drv] c10chooser,
         optimize_single_route "V1" [c10b] [c10drv] c10chooser] := by
  unfold optimize_routes
  rw [if_neg (by decide), if_neg (by decide), c10_group]
  simp only [List.map_cons, List.map_nil, c10_routesA, c10_routesB]
  rfl

/-- C10: optimize_routes partitions the items by the calendar date of their
delivery_window_start and runs the capacity assignment per date group with
the running totals reset, so one vehicle can collect several routes (one per
date) in a single call whose combined weight exceeds its declared
capacity_weight even though the fallback path was never exercised in either
group. Concretely: vehicle V1 of capacity_weight 10 receives two routes of
total weight 8 each (16 combined) for the items due on day 0 and day 1,
both placed by the normal first-fit branch. -/
theorem claim_C10 :
    ∃ r1 r2 : RouteCore,
      optimize_routes [c10veh] [c10drv] c10chooser [c10a, c10b] = .ok [r1, r2]
      ∧ r1.vehicle_id = "V1" ∧ r2.vehicle_id = "V1"
      ∧ r1.total_weight = 8 ∧ r2.total_weight = 8
      ∧ c10veh.capacity_weight < r1.total_weight + r2.total_weight
      ∧ group_by_delivery_date [c10a, c10b] = [(0, [c10a]), (1, [c10b])]
      ∧ (assign_products_to_vehicles [c10veh] (sortDesc [c10a])).fallbackA "V1" = []
      ∧ (assign_products_to_vehicles [c10veh] (sortDesc [c10b])).fallbackA "V1" = [] := by
  refine ⟨optimize_single_route "V1" [c10a] [c10drv] c10chooser,
    optimize_single_route "V1" [c10b] [c10drv] c10chooser,
    c10_run, rfl, rfl, ?_, ?_, ?_, c10_group, ?_, ?_⟩
  · simp [optimize_single_route, sumWeights, c10a]
  · simp [optimize_single_route, sumWeights, c10b]
  · simp only [optimize_single_route]
    simp only [sumWeights, List.map_cons, List.map_nil, List.sum_cons, List.sum_nil]
    norm_num [c10veh, c10a, c10b]
  · rw [c10_sortA, c10_assignA]
  · rw [c10_sortB, c10_assignB]
